import Mathlib

set_option maxRecDepth 100000
set_option maxHeartbeats 2000000

/-!
Shallow embedding of the content-curation core of the forme-app repository:
the regex-based RSS/Atom feed parser (api/rss.ts), the Twitter rate-limit
ledger, call-budget allocator and curation loop (services/twitter.ts), the
RSS curation service (services/rss.ts), the unified curation orchestrator
(services/unifiedCuration.ts) and the content scheduler tick
(services/contentScheduler.ts).  All definitions are executable; impure
library calls of the source (current time, random numbers, network fetches,
database reads and writes) are passed in as explicit parameters.
-/

namespace Forme

/-! ## Basic string machinery

The source manipulates JavaScript strings with regular expressions.  We embed
strings as `List Char` (wrapped into `String` at the record boundaries) and
implement the exact scanning behaviour of the handful of regex shapes the
source uses, with explicit fuel so that every function is structurally
recursive and kernel-reducible. -/

/-- ASCII lowering, as ECMAScript `toLowerCase` acts on the ASCII range.
Non-ASCII characters in the inputs considered here are unaffected. -/
def lowerChar (c : Char) : Char :=
  if 'A' ≤ c ∧ c ≤ 'Z' then Char.ofNat (c.toNat + 32) else c

/-- `String.prototype.toLowerCase` on char lists (ASCII range). -/
def lowerStr (s : List Char) : List Char := s.map lowerChar

/-- Case-insensitive prefix test (regex flag `i`, ASCII). -/
def ciPrefixOf : List Char → List Char → Bool
  | [], _ => true
  | _ :: _, [] => false
  | p :: ps, c :: cs => (lowerChar p == lowerChar c) && ciPrefixOf ps cs

/-- `String.prototype.includes`: does `pat` occur somewhere in `hay`
(case-sensitive)? -/
def hasSub (hay pat : List Char) : Bool :=
  match hay with
  | [] => pat.isEmpty
  | _ :: t => pat.isPrefixOf hay || hasSub t pat

/-- Split the input at the first occurrence of a given character, returning the
part before it and the part after it.  Used for the `[^>]*>` regex fragment
(everything up to the first closing angle bracket). -/
def splitAtChar (stop : Char) : List Char → Option (List Char × List Char)
  | [] => none
  | c :: cs =>
    if c == stop then some ([], cs)
    else (splitAtChar stop cs).map (fun p => (c :: p.1, p.2))

/-- JavaScript `\s` on the characters that occur in feed text (ASCII
whitespace; the non-breaking space is already rewritten to a plain space by
`cleanText` before whitespace collapsing). -/
def isJsWs (c : Char) : Bool :=
  c == ' ' || c == '\t' || c == '\n' || c == '\r' ||
  c == Char.ofNat 11 || c == Char.ofNat 12

/-- One global pass of `String.prototype.replace(/pat/g, repl)` for a literal
pattern: non-overlapping, left to right.  Fueled by the input length. -/
def replaceAllF (pat repl : List Char) : Nat → List Char → List Char
  | _, [] => []
  | 0, l => l
  | fuel + 1, c :: cs =>
    if pat.isPrefixOf (c :: cs) ∧ pat ≠ [] then
      repl ++ replaceAllF pat repl fuel (cs.drop (pat.length - 1))
    else
      c :: replaceAllF pat repl fuel cs

def replaceAll (pat repl l : List Char) : List Char := replaceAllF pat repl l.length l

/-- `.replace(/<[^>]*>/g, '')`: drop every maximal `<...>` run; a `<` with no
later `>` never matches and is kept verbatim. -/
def stripTagsF : Nat → List Char → List Char
  | _, [] => []
  | 0, l => l
  | fuel + 1, c :: cs =>
    if c == '<' then
      match splitAtChar '>' cs with
      | some p => stripTagsF fuel p.2
      | none => c :: cs
    else c :: stripTagsF fuel cs

def stripTags (l : List Char) : List Char := stripTagsF l.length l

/-- `.replace(/\s+/g, ' ')`: collapse whitespace runs to one space. -/
def collapseWsF : Nat → List Char → List Char
  | _, [] => []
  | 0, l => l
  | fuel + 1, c :: cs =>
    if isJsWs c then ' ' :: collapseWsF fuel (cs.dropWhile isJsWs)
    else c :: collapseWsF fuel cs

def collapseWs (l : List Char) : List Char := collapseWsF l.length l

/-- `String.prototype.trim` (on the whitespace characters of `isJsWs`). -/
def trimWs (l : List Char) : List Char :=
  ((l.dropWhile isJsWs).reverse.dropWhile isJsWs).reverse

def entLt : List Char := ['&', 'l', 't', ';']
def entGt : List Char := ['&', 'g', 't', ';']
def entAmp : List Char := ['&', 'a', 'm', 'p', ';']
def entQuot : List Char := ['&', 'q', 'u', 'o', 't', ';']
def entApos : List Char := ['&', '#', '3', '9', ';']
def entNbsp : List Char := ['&', 'n', 'b', 's', 'p', ';']

/-- `cleanText` of api/rss.ts: strip HTML tags, decode the five standard
entities plus the non-breaking space (in the exact source order), collapse
whitespace and trim.  The empty-input early return of the source is subsumed
(every stage maps the empty string to itself). -/
def cleanText (l : List Char) : List Char :=
  trimWs (collapseWs
    (replaceAll entNbsp [' ']
      (replaceAll entApos [Char.ofNat 39]
        (replaceAll entQuot ['"']
          (replaceAll entAmp ['&']
            (replaceAll entGt ['>']
              (replaceAll entLt ['<']
                (stripTags l))))))))

/-! ## Regex scanners

The parser uses three regex shapes, all with flags `i` (case-insensitive) and
`s` (dot matches newline):

* block matches `<tag[^>]*>.*?<\/tag>` with flag `g` (used for `<item>` and
  `<entry>` elements);
* group extraction `<tag[^>]*>(?:<!\[CDATA\[)?(.*?)(?:\]\]>)?<\/tag>`
  (title / description / link of an RSS item) and the simpler
  `<tag[^>]*>(.*?)<\/tag>` (pubDate, guid, Atom fields);
* the Atom link attribute `<link[^>]*href="([^"]*)"[^>]*>`.

Each is realised as a fueled scan that advances the start position by one
character whenever the anchored attempt fails, exactly as a backtracking
regex engine searches for the leftmost match. -/

def cdataOpen : List Char := ['<', '!', '[', 'C', 'D', 'A', 'T', 'A', '[']
def cdataClose : List Char := [']', ']', '>']

/-- The lazy group `(.*?)(?:\]\]>)?<\/tag>`: the shortest prefix of the input
after which either `]]>` followed by the closing tag, or the closing tag
itself, appears (the optional `]]>` is tried first at each position, as a
greedy optional group is).  Returns the group. -/
def lazyGroupTo (closeTag : List Char) : List Char → Option (List Char)
  | [] => none
  | c :: cs =>
    if ciPrefixOf (cdataClose ++ closeTag) (c :: cs) then some []
    else if ciPrefixOf closeTag (c :: cs) then some []
    else (lazyGroupTo closeTag cs).map (fun g => c :: g)

/-- The lazy group `(.*?)<\/tag>` without the CDATA unwrapping. -/
def lazyTo (closeTag : List Char) : List Char → Option (List Char)
  | [] => none
  | c :: cs =>
    if ciPrefixOf closeTag (c :: cs) then some []
    else (lazyTo closeTag cs).map (fun g => c :: g)

/-- Anchored attempt of `<tag[^>]*>(?:<!\[CDATA\[)?(.*?)(?:\]\]>)?<\/tag>` at
the head of the input: the opening marker, everything up to the first `>`,
then the optional CDATA wrapper (greedy, with backtracking when no close
follows) and the lazy group. -/
def extractCDataAt (openTag closeTag : List Char) (s : List Char) : Option (List Char) :=
  if ciPrefixOf openTag s then
    match splitAtChar '>' (s.drop openTag.length) with
    | none => none
    | some p =>
      let afterGt := p.2
      let withCData :=
        if ciPrefixOf cdataOpen afterGt then
          lazyGroupTo closeTag (afterGt.drop cdataOpen.length)
        else none
      match withCData with
      | some g => some g
      | none => lazyGroupTo closeTag afterGt
  else none

/-- Anchored attempt of the plain `<tag[^>]*>(.*?)<\/tag>`. -/
def extractSimpleAt (openTag closeTag : List Char) (s : List Char) : Option (List Char) :=
  if ciPrefixOf openTag s then
    match splitAtChar '>' (s.drop openTag.length) with
    | none => none
    | some p => lazyTo closeTag p.2
  else none

/-- Leftmost match of the CDATA-aware extraction regex. -/
def extractCDataF (openTag closeTag : List Char) : Nat → List Char → Option (List Char)
  | _, [] => none
  | 0, _ => none
  | fuel + 1, c :: cs =>
    match extractCDataAt openTag closeTag (c :: cs) with
    | some g => some g
    | none => extractCDataF openTag closeTag fuel cs

def extractCData (openTag closeTag : String) (s : List Char) : Option (List Char) :=
  extractCDataF openTag.data closeTag.data s.length s

/-- Leftmost match of the plain extraction regex. -/
def extractSimpleF (openTag closeTag : List Char) : Nat → List Char → Option (List Char)
  | _, [] => none
  | 0, _ => none
  | fuel + 1, c :: cs =>
    match extractSimpleAt openTag closeTag (c :: cs) with
    | some g => some g
    | none => extractSimpleF openTag closeTag fuel cs

def extractSimple (openTag closeTag : String) (s : List Char) : Option (List Char) :=
  extractSimpleF openTag.data closeTag.data s.length s

/-- Anchored attempt of the block regex `<tag[^>]*>.*?<\/tag>`; returns the
length of the full match (so the caller can cut the original, case-preserved
text). -/
def matchBlockAt (openTag closeTag : List Char) (s : List Char) : Option Nat :=
  if ciPrefixOf openTag s then
    match splitAtChar '>' (s.drop openTag.length) with
    | none => none
    | some p =>
      match lazyTo closeTag p.2 with
      | none => none
      | some body =>
        some (openTag.length + p.1.length + 1 + body.length + closeTag.length)
  else none

/-- All matches of `<tag[^>]*>.*?<\/tag>` with flag `g`: leftmost first,
non-overlapping, resuming after each match. -/
def blocksF (openTag closeTag : List Char) : Nat → List Char → List (List Char)
  | _, [] => []
  | 0, _ => []
  | fuel + 1, c :: cs =>
    match matchBlockAt openTag closeTag (c :: cs) with
    | some n => (c :: cs).take n :: blocksF openTag closeTag fuel ((c :: cs).drop n)
    | none => blocksF openTag closeTag fuel cs

def tagBlocks (tag : String) (s : List Char) : List (List Char) :=
  let openTag := '<' :: tag.data
  let closeTag := '<' :: '/' :: tag.data ++ ['>']
  blocksF openTag closeTag s.length s

/-- The Atom link regex `<link[^>]*href="([^"]*)"[^>]*>` anchored at the head:
`[^>]*` cannot cross the first `>`, so a matching `href="` must begin before
it; the greedy `[^>]*` with backtracking selects the last such occurrence for
which the capture closes with `"` and a `>` follows.  Returns the capture. -/
def hrefCandidates (fuel : Nat) (tagChars : List Char) (rest : List Char) : List (List Char × List Char) :=
  -- pairs (prefix consumed, remainder) at every occurrence of href=" in the
  -- region before the first '>', paired with the text after the quote opener;
  -- `rest` is the remainder of the whole input from the same point.
  match fuel, tagChars, rest with
  | 0, _, _ => []
  | _, [], _ => []
  | fuel + 1, t :: ts, r =>
    let here :=
      if ciPrefixOf ['h', 'r', 'e', 'f', '=', '"'] (t :: ts) then
        [(t :: ts, r.drop 6)]
      else []
    here ++ hrefCandidates fuel ts (r.drop 1)

def quoteThenGt (s : List Char) : Option (List Char) :=
  -- capture `([^"]*)` then require `"` and, later, a `>`
  match splitAtChar '"' s with
  | none => none
  | some p => if p.2.contains '>' then some p.1 else none

def atomLinkAt (s : List Char) : Option (List Char) :=
  if ciPrefixOf ['<', 'l', 'i', 'n', 'k'] s then
    let afterOpen := s.drop 5
    match splitAtChar '>' afterOpen with
    | none => none
    | some p =>
      let cands := hrefCandidates afterOpen.length p.1 afterOpen
      (cands.filterMap (fun c => quoteThenGt c.2)).getLast?
  else none

def atomLinkF : Nat → List Char → Option (List Char)
  | _, [] => none
  | 0, _ => none
  | fuel + 1, c :: cs =>
    match atomLinkAt (c :: cs) with
    | some g => some g
    | none => atomLinkF fuel cs

/-- Leftmost match of `<link[^>]*href="([^"]*)"[^>]*>`. -/
def atomLinkHref (s : List Char) : Option (List Char) :=
  atomLinkF s.length s

/-! ## Feed parser (api/rss.ts) -/

/-- The impure inputs of one parsing call: `new Date().toISOString()` (the
fallback publish date) and the `Date.now()`/`Math.random()` part of the
synthesized guid placeholder. -/
structure JsEnv where
  nowIso : String
  nonce : String

structure RSSItemRec where
  title : String
  description : String
  link : String
  pubDate : String
  guid : String
  author : String
deriving DecidableEq, Repr

structure RSSFeedRec where
  title : String
  description : String
  link : String
  items : List RSSItemRec
deriving DecidableEq, Repr

/-- JavaScript `a || b` on strings: `b` when `a` is empty. -/
def orNonempty (a b : List Char) : List Char := if a.isEmpty then b else a

def optStr (o : Option (List Char)) : List Char := o.getD []

/-- The RSS author regex is an alternation
`<author[^>]*>(.*?)<\/author>|<dc:creator[^>]*>(?:<!\[CDATA\[)?(.*?)(?:\]\]>)?<\/dc:creator>`:
at every start position the first alternative is attempted before the second,
and the leftmost successful position wins. -/
def rssAuthorF : Nat → List Char → Option (List Char)
  | _, [] => none
  | 0, _ => none
  | fuel + 1, c :: cs =>
    match extractSimpleAt ['<', 'a', 'u', 't', 'h', 'o', 'r']
        ['<', '/', 'a', 'u', 't', 'h', 'o', 'r', '>'] (c :: cs) with
    | some g => some g
    | none =>
      match extractCDataAt ['<', 'd', 'c', ':', 'c', 'r', 'e', 'a', 't', 'o', 'r']
          ['<', '/', 'd', 'c', ':', 'c', 'r', 'e', 'a', 't', 'o', 'r', '>'] (c :: cs) with
      | some g => some g
      | none => rssAuthorF fuel cs

def rssAuthorMatch (s : List Char) : Option (List Char) := rssAuthorF s.length s

/-- `parseRSSItem` of api/rss.ts.  Returns `none` (the source returns `null`)
when both the cleaned title and the cleaned description are empty. -/
def parseRSSItem (env : JsEnv) (itemXml : List Char) : Option RSSItemRec :=
  let titleM := extractCData "<title" "</title>" itemXml
  let descM := extractCData "<description" "</description>" itemXml
  let linkM := extractCData "<link" "</link>" itemXml
  let pubDateM := extractSimple "<pubDate" "</pubDate>" itemXml
  let guidM := extractSimple "<guid" "</guid>" itemXml
  -- `<author[^>]*>(.*?)<\/author>|<dc:creator[^>]*>(?:<!\[CDATA\[)?(.*?)(?:\]\]>)?<\/dc:creator>`:
  -- the leftmost match wins, the first alternative tried first at every
  -- position; exactly one of the two groups is defined, so the chain
  -- `authorMatch?.[1] || authorMatch?.[2] || ''` reduces to that group when it
  -- is nonempty and to the empty string otherwise.
  let authorRaw := optStr (rssAuthorMatch itemXml)
  let title := cleanText (optStr titleM)
  let description := cleanText (optStr descM)
  let link := cleanText (optStr linkM)
  let pubDate := orNonempty (trimWs (optStr pubDateM)) env.nowIso.data
  let guid :=
    orNonempty (orNonempty (trimWs (optStr guidM)) link)
      (('i' :: 't' :: 'e' :: 'm' :: '-' :: []) ++ env.nonce.data)
  let author := cleanText authorRaw
  if title.isEmpty ∧ description.isEmpty then none
  else
    some ⟨⟨title⟩, ⟨description⟩, ⟨link⟩, ⟨pubDate⟩, ⟨guid⟩, ⟨author⟩⟩

/-- The Atom author regex
`<author[^>]*>.*?<name[^>]*>(.*?)<\/name>.*?<\/author>` anchored at the head:
the opening tag, then the earliest `<name[^>]*>`, then the lazy group up to
`</name>`, and a later `</author>` must exist. -/
def atomAuthorAt (s : List Char) : Option (List Char) :=
  if ciPrefixOf ['<', 'a', 'u', 't', 'h', 'o', 'r'] s then
    match splitAtChar '>' (s.drop 7) with
    | none => none
    | some p =>
      match lazyTo ['<', 'n', 'a', 'm', 'e'] p.2 with
      | none => none
      | some pre =>
        let afterNameOpen := p.2.drop (pre.length + 5)
        match splitAtChar '>' afterNameOpen with
        | none => none
        | some q =>
          match lazyTo ['<', '/', 'n', 'a', 'm', 'e', '>'] q.2 with
          | none => none
          | some g =>
            let afterName := q.2.drop (g.length + 7)
            match lazyTo ['<', '/', 'a', 'u', 't', 'h', 'o', 'r', '>'] afterName with
            | none => none
            | some _ => some g
  else none

def atomAuthorF : Nat → List Char → Option (List Char)
  | _, [] => none
  | 0, _ => none
  | fuel + 1, c :: cs =>
    match atomAuthorAt (c :: cs) with
    | some g => some g
    | none => atomAuthorF fuel cs

def atomAuthor (s : List Char) : Option (List Char) := atomAuthorF s.length s

/-- `parseAtomEntry` of api/rss.ts. -/
def parseAtomEntry (env : JsEnv) (entryXml : List Char) : Option RSSItemRec :=
  let titleM := extractSimple "<title" "</title>" entryXml
  let summaryM := extractSimple "<summary" "</summary>" entryXml
  let contentM := extractSimple "<content" "</content>" entryXml
  let linkM := atomLinkHref entryXml
  let publishedM := extractSimple "<published" "</published>" entryXml
  let updatedM := extractSimple "<updated" "</updated>" entryXml
  let idM := extractSimple "<id" "</id>" entryXml
  let authorM := atomAuthor entryXml
  let title := cleanText (optStr titleM)
  let description := cleanText (orNonempty (optStr summaryM) (optStr contentM))
  let link := optStr linkM
  let pubDate :=
    trimWs (orNonempty (optStr publishedM)
      (orNonempty (optStr updatedM) env.nowIso.data))
  let guid :=
    orNonempty (orNonempty (trimWs (optStr idM)) link)
      (('e' :: 'n' :: 't' :: 'r' :: 'y' :: '-' :: []) ++ env.nonce.data)
  let author := cleanText (optStr authorM)
  if title.isEmpty ∧ description.isEmpty then none
  else
    some ⟨⟨title⟩, ⟨description⟩, ⟨link⟩, ⟨pubDate⟩, ⟨guid⟩, ⟨author⟩⟩

def atomFeedMarker : String := "<feed"
def atomNsMarker : String := "xmlns=\"http://www.w3.org/2005/Atom\""
def rss1NsMarker : String := "xmlns=\"http://purl.org/rss/1.0/\""

/-- The dialect detection of `parseRSSXML`: a substring test over the whole
document. -/
def isAtomFeed (xml : List Char) : Bool :=
  hasSub xml atomFeedMarker.data || hasSub xml atomNsMarker.data

/-- RSS 1.0 detection (computed and logged by the source; it does not change
the extraction path). -/
def isRSS1Feed (xml : List Char) : Bool :=
  hasSub xml rss1NsMarker.data

def atomFeedFallback : String := "Atom Feed"
def rssFeedFallback : String := "RSS Feed"

/-- `parseRSSXML` of api/rss.ts: dialect detection, channel metadata, then at
most the first 20 `<item>`/`<entry>` blocks, each through the per-item parser,
dropping the ones that return `null`. -/
def parseRSSXML (env : JsEnv) (xmlText : String) : RSSFeedRec :=
  let xml := xmlText.data
  if isAtomFeed xml then
    let titleM := extractSimple "<title" "</title>" xml
    let subtitleM := extractSimple "<subtitle" "</subtitle>" xml
    let linkM := atomLinkHref xml
    let channelTitle := cleanText (orNonempty (optStr titleM) atomFeedFallback.data)
    let channelDesc := cleanText (orNonempty (optStr subtitleM) atomFeedFallback.data)
    let channelLink := optStr linkM
    let items := ((tagBlocks "entry" xml).take 20).filterMap (parseAtomEntry env)
    ⟨⟨channelTitle⟩, ⟨channelDesc⟩, ⟨channelLink⟩, items⟩
  else
    let channelM := extractSimple "<channel" "</channel>" xml
    -- `channelMatch?.[1] || xmlText`: the whole document when there is no
    -- channel element (or its content is empty, JavaScript falsiness)
    let channelContent := orNonempty (optStr channelM) xml
    let titleM := extractCData "<title" "</title>" channelContent
    let descM := extractCData "<description" "</description>" channelContent
    let linkM := extractSimple "<link" "</link>" channelContent
    let channelTitle := cleanText (orNonempty (optStr titleM) rssFeedFallback.data)
    let channelDesc := cleanText (orNonempty (optStr descM) rssFeedFallback.data)
    let channelLink := cleanText (optStr linkM)
    let items := ((tagBlocks "item" xml).take 20).filterMap (parseRSSItem env)
    ⟨⟨channelTitle⟩, ⟨channelDesc⟩, ⟨channelLink⟩, items⟩

/-! ## Date handling (RSSService.parseRSSDate of services/rss.ts)

The source calls `new Date(pubDate)` and `toISOString()`.  We model the
ECMAScript date parser on the RFC 1123 GMT form that RSS `pubDate` elements
(and the spec scenario) use — `Www, dd Mmm yyyy HH:MM:SS GMT` — and treat
every other shape as unparseable, which the source maps to the current-time
fallback. -/

structure JsDate where
  year : Nat
  month : Nat
  day : Nat
  hour : Nat
  minute : Nat
  second : Nat
deriving DecidableEq, Repr

def digitVal (c : Char) : Option Nat :=
  if '0' ≤ c ∧ c ≤ '9' then some (c.toNat - 48) else none

def isAsciiAlpha (c : Char) : Bool :=
  ('a' ≤ c ∧ c ≤ 'z') || ('A' ≤ c ∧ c ≤ 'Z')

def monthNum (a b c : Char) : Option Nat :=
  match lowerChar a, lowerChar b, lowerChar c with
  | 'j', 'a', 'n' => some 1
  | 'f', 'e', 'b' => some 2
  | 'm', 'a', 'r' => some 3
  | 'a', 'p', 'r' => some 4
  | 'm', 'a', 'y' => some 5
  | 'j', 'u', 'n' => some 6
  | 'j', 'u', 'l' => some 7
  | 'a', 'u', 'g' => some 8
  | 's', 'e', 'p' => some 9
  | 'o', 'c', 't' => some 10
  | 'n', 'o', 'v' => some 11
  | 'd', 'e', 'c' => some 12
  | _, _, _ => none

def parseRfc1123 : List Char → Option JsDate
  | w1 :: w2 :: w3 :: ',' :: ' ' :: d1 :: d2 :: ' ' :: m1 :: m2 :: m3 :: ' ' ::
      y1 :: y2 :: y3 :: y4 :: ' ' :: h1 :: h2 :: ':' :: n1 :: n2 :: ':' ::
      s1 :: s2 :: ' ' :: 'G' :: 'M' :: 'T' :: [] => do
    if isAsciiAlpha w1 ∧ isAsciiAlpha w2 ∧ isAsciiAlpha w3 then
      let dt := (← digitVal d1) * 10 + (← digitVal d2)
      let mo ← monthNum m1 m2 m3
      let yr := (← digitVal y1) * 1000 + (← digitVal y2) * 100 +
        (← digitVal y3) * 10 + (← digitVal y4)
      let hr := (← digitVal h1) * 10 + (← digitVal h2)
      let mi := (← digitVal n1) * 10 + (← digitVal n2)
      let sc := (← digitVal s1) * 10 + (← digitVal s2)
      if 1 ≤ dt ∧ dt ≤ 31 ∧ hr ≤ 23 ∧ mi ≤ 59 ∧ sc ≤ 59 then
        some ⟨yr, mo, dt, hr, mi, sc⟩
      else none
    else none
  | _ => none

def padDigits (width n : Nat) : List Char :=
  let ds := Nat.toDigits 10 n
  List.replicate (width - ds.length) '0' ++ ds

/-- `Date.prototype.toISOString` (UTC input, zero milliseconds). -/
def toISOString (d : JsDate) : List Char :=
  padDigits 4 d.year ++ '-' :: padDigits 2 d.month ++ '-' :: padDigits 2 d.day ++
  'T' :: padDigits 2 d.hour ++ ':' :: padDigits 2 d.minute ++ ':' ::
  padDigits 2 d.second ++ ('.' :: '0' :: '0' :: '0' :: 'Z' :: [])

/-- `RSSService.parseRSSDate`: parse, and fall back to the current time when
the input is unparseable. -/
def parseRSSDate (env : JsEnv) (pubDate : String) : String :=
  match parseRfc1123 pubDate.data with
  | some d => ⟨toISOString d⟩
  | none => env.nowIso

/-- Specification-side predicate: the shape `YYYY-MM-DDThh:mm:ss.mmmZ` of an
ISO-8601 UTC timestamp, as produced by `toISOString`. -/
def isISOTimestamp (s : String) : Bool :=
  match s.data with
  | [y1, y2, y3, y4, h1, o1, o2, h2, a1, a2, t, b1, b2, c1, e1, e2, c2, f1, f2, d, g1, g2, g3, z] =>
    (digitVal y1).isSome && (digitVal y2).isSome && (digitVal y3).isSome &&
    (digitVal y4).isSome && h1 == '-' && (digitVal o1).isSome &&
    (digitVal o2).isSome && h2 == '-' && (digitVal a1).isSome &&
    (digitVal a2).isSome && t == 'T' && (digitVal b1).isSome &&
    (digitVal b2).isSome && c1 == ':' && (digitVal e1).isSome &&
    (digitVal e2).isSome && c2 == ':' && (digitVal f1).isSome &&
    (digitVal f2).isSome && d == '.' && (digitVal g1).isSome &&
    (digitVal g2).isSome && (digitVal g3).isSome && z == 'Z'
  | _ => false

/-! ## Content model and classification -/

inductive ContentType
  | breaking
  | transfer
  | team
  | general
deriving DecidableEq, Repr

/-- `Omit<ContentItem, 'id' | 'cached_at'>`: the normalized content record the
curation services produce. -/
structure CItem where
  source_id : String
  platform_id : String
  content_text : String
  content_summary : Option String
  author_handle : String
  posted_at : String
  engagement_count : Nat
  is_breaking_news : Bool
  content_type : ContentType
  media_urls : List String
  external_url : String
  source_url : Option String
deriving DecidableEq, Repr

def includesKw (text : List Char) (kw : String) : Bool := hasSub text kw.data

/-- The combined lowercased text `(rssItem.title + ' ' + rssItem.description)
.toLowerCase()` the RSS classifier matches on. -/
def rssClassText (title description : String) : List Char :=
  lowerStr (title.data ++ ' ' :: description.data)

def rssKwBreaking (title description : String) : Bool :=
  let text := rssClassText title description
  includesKw text "breaking" || includesKw text "urgent" || includesKw text "confirmed"

def rssKwTransfer (title description : String) : Bool :=
  let text := rssClassText title description
  includesKw text "transfer" || includesKw text "signs" ||
    includesKw text "deal" || includesKw text "joins"

def rssKwTeam (title description : String) : Bool :=
  let text := rssClassText title description
  includesKw text "team" || includesKw text "squad" ||
    includesKw text "lineup" || includesKw text "training"

/-- The keyword chain of `RSSService.transformRSSItemToContentItem`
(services/rss.ts): first matching tier wins, over the lowercased
`title + ' ' + description`. -/
def classifyRSSText (title description : String) : ContentType :=
  if rssKwBreaking title description then .breaking
  else if rssKwTransfer title description then .transfer
  else if rssKwTeam title description then .team
  else .general

def tweetKwBreaking (text : String) (totalEngagement : Nat) : Bool :=
  let t := lowerStr text.data
  includesKw t "breaking" || includesKw t "🚨" || decide (totalEngagement > 1000)

def tweetKwTransfer (text : String) : Bool :=
  let t := lowerStr text.data
  includesKw t "transfer" || includesKw t "signs" || includesKw t "deal"

def tweetKwTeam (text : String) : Bool :=
  let t := lowerStr text.data
  includesKw t "team" || includesKw t "squad" || includesKw t "lineup"

/-- The keyword chain of `TwitterAPIService.transformTweetToContentItem`
(services/twitter.ts): the breaking tier also fires on total engagement
above 1000. -/
def classifyTweetText (text : String) (totalEngagement : Nat) : ContentType :=
  if tweetKwBreaking text totalEngagement then .breaking
  else if tweetKwTransfer text then .transfer
  else if tweetKwTeam text then .team
  else .general

structure Tweet where
  id : String
  text : String
  created_at : String
  like_count : Nat
  retweet_count : Nat
  reply_count : Nat
  quote_count : Nat
  media_keys : List String
deriving DecidableEq, Repr

def twitterBase : String := "https://twitter.com/"
def statusSeg : String := "/status/"

/-- `TwitterAPIService.transformTweetToContentItem`. -/
def transformTweetToContentItem (tweet : Tweet) (sourceId authorHandle : String) : CItem :=
  let totalEngagement :=
    tweet.like_count + tweet.retweet_count + tweet.reply_count + tweet.quote_count
  let contentType := classifyTweetText tweet.text totalEngagement
  { source_id := sourceId
    platform_id := tweet.id
    content_text := tweet.text
    content_summary := none
    author_handle := authorHandle
    posted_at := tweet.created_at
    engagement_count := totalEngagement
    is_breaking_news := contentType = ContentType.breaking
    content_type := contentType
    media_urls := tweet.media_keys
    external_url := twitterBase ++ authorHandle ++ statusSeg ++ tweet.id
    source_url := none }

/-- An RSS source as the RSS curation service sees it (`RSSSource`). -/
structure RSSSource where
  id : String
  handle : String
  display_name : Option String
  feed_url : Option String
  priority : Nat
deriving DecidableEq, Repr

/-- The synthetic engagement heuristic of
`RSSService.transformRSSItemToContentItem`, in tenths so that the 1.5 and 1.3
publisher multipliers stay exact; `jitterTenths` stands for
`Math.random() * 100` (a value below 100, here in tenths).  The source
computes this in binary floating point; the difference cannot affect any
claim below, none of which reads `engagement_count`. -/
def rssEngagement (contentType : ContentType) (feedUrl : Option String) (jitterTenths : Nat) : Nat :=
  let base10 : Nat :=
    match contentType with
    | .breaking => 2000
    | .transfer => 1500
    | _ => 500
  let base10 := if hasSub (feedUrl.getD "").data ['b', 'b', 'c'] then base10 * 3 / 2 else base10
  let base10 := if hasSub (feedUrl.getD "").data ['e', 's', 'p', 'n'] then base10 * 13 / 10 else base10
  (base10 + jitterTenths) / 10

/-- `RSSService.transformRSSItemToContentItem`. -/
def transformRSSItemToContentItem (env : JsEnv) (jitterTenths : Nat)
    (rssItem : RSSItemRec) (source : RSSSource) : CItem :=
  let contentType := classifyRSSText rssItem.title rssItem.description
  { source_id := source.id
    platform_id := rssItem.guid
    content_text := rssItem.title
    content_summary := some rssItem.description
    author_handle := source.handle
    posted_at := parseRSSDate env rssItem.pubDate
    engagement_count := rssEngagement contentType source.feed_url jitterTenths
    is_breaking_news := contentType = ContentType.breaking
    content_type := contentType
    media_urls := []
    external_url := rssItem.link
    source_url := some rssItem.link }

/-! ## Rate limit ledger (TwitterRateLimitService of services/twitter.ts)

`getAPIUsage` is a database read: it can throw, return no row, or return a row
carrying `calls_used`.  A lookup result is therefore
`Except Unit (Option Nat)`. -/

abbrev UsageLookup := Except Unit (Option Nat)

def DAILY_LIMIT : Nat := 3

structure RateCheck where
  canCall : Bool
  reason : Option String
deriving DecidableEq, Repr

def limitReasonPre : String := "Daily limit reached ("
def limitReasonPost : String := " calls used)"
def storageErrorReason : String := "Error checking rate limit"

/-- `TwitterRateLimitService.canMakeAPICall`: deny with a counted reason at or
above the daily limit; deny with a fixed reason when the storage read throws. -/
def canMakeAPICall (usage : UsageLookup) : RateCheck :=
  match usage with
  | .error _ => ⟨false, some storageErrorReason⟩
  | .ok u =>
    let dailyCalls := u.getD 0
    if dailyCalls ≥ DAILY_LIMIT then
      ⟨false, some (limitReasonPre ++ toString dailyCalls ++ "/" ++
        toString DAILY_LIMIT ++ limitReasonPost)⟩
    else ⟨true, none⟩

/-- `TwitterRateLimitService.getRemainingCalls`: `Math.max(0, limit - used)`,
and 0 when the storage read throws. -/
def getRemainingCalls (usage : UsageLookup) : Nat :=
  match usage with
  | .error _ => 0
  | .ok u => DAILY_LIMIT - u.getD 0

/-! ## Call budget allocator (TwitterCurationService.distributeCalls) -/

structure TwSource where
  id : String
  handle : String
  priority : Nat
deriving DecidableEq, Repr

structure Alloc where
  source : TwSource
  callsToUse : Nat
deriving DecidableEq, Repr

/-- One tier of the allocator: each source takes
`Math.min(callsPerSource, remainingCalls)` and is pushed only when that is
positive; the running remainder decreases accordingly. -/
def allocTier (callsPerSource : Nat) : List TwSource → Nat → List Alloc × Nat
  | [], rem => ([], rem)
  | s :: ss, rem =>
    let calls := min callsPerSource rem
    if calls > 0 then
      let rest := allocTier callsPerSource ss (rem - calls)
      (⟨s, calls⟩ :: rest.1, rest.2)
    else
      allocTier callsPerSource ss rem

/-- One tier block of `distributeCalls`: skipped entirely when the tier has no
source or the running remainder is exhausted; otherwise each source gets an
even floored share of the tier target, at least 1, capped by the remainder. -/
def tierStep (tierSources : List TwSource) (tierTarget rem : Nat) : List Alloc × Nat :=
  if tierSources.length > 0 ∧ rem > 0 then
    allocTier (max 1 (tierTarget / tierSources.length)) tierSources rem
  else ([], rem)

/-- `TwitterCurationService.distributeCalls`.  Tier 1 targets
`Math.max(1, Math.floor(totalCalls * 0.5))` of the original total, tier 2
`Math.max(1, Math.floor(totalCalls * 0.35))`, tier 3 the remainder.
`Math.floor(totalCalls * 0.35)` is binary floating point in the source; for
the call budgets that arise (at most `DAILY_LIMIT = 3`) the rational value
`totalCalls * 35 / 100` used here is exact. -/
def distributeCalls (sources : List TwSource) (totalCalls : Nat) : List Alloc :=
  if totalCalls = 0 then []
  else
    let p1 := sources.filter (fun s => s.priority = 1)
    let p2 := sources.filter (fun s => s.priority = 2)
    let p3 := sources.filter (fun s => s.priority = 3)
    let step1 := tierStep p1 (max 1 (totalCalls / 2)) totalCalls
    let step2 := tierStep p2 (max 1 (totalCalls * 35 / 100)) step1.2
    let step3 := tierStep p3 step2.2 step2.2
    step1.1 ++ step2.1 ++ step3.1

/-! ## Social fetch with retry (TwitterCurationService.curateContentForUser)

A fetch environment maps an attempt index to the outcome of
`twitterAPI.getUserTweets` on that attempt: a list of tweets or a thrown
message. -/

def MAX_RETRIES : Nat := 2
def RETRY_DELAY_MS : Nat := 15 * 60 * 1000
def DELAY_BETWEEN_CALLS_MS : Nat := 60000

/-- `error.message.includes('429')`. -/
def is429Error (msg : String) : Bool := hasSub msg.data ['4', '2', '9']

structure FetchTrace where
  result : Except String (List Tweet)
  attempts : Nat
  delays : List Nat
deriving Repr

/-- The retry loop of `curateContentForUser`: `while (retryCount <= MAX_RETRIES)`
retry only on a message containing `429` and only while `retryCount <
MAX_RETRIES`, waiting 15 minutes before each retry; any other error is
rethrown at once.  `left` is `MAX_RETRIES - retryCount`. -/
def retryLoop (f : Nat → Except String (List Tweet)) (k : Nat) : Nat → FetchTrace
  | 0 =>
    match f k with
    | .ok ts => ⟨.ok ts, 1, []⟩
    | .error e => ⟨.error e, 1, []⟩
  | left + 1 =>
    match f k with
    | .ok ts => ⟨.ok ts, 1, []⟩
    | .error e =>
      if is429Error e then
        let t := retryLoop f (k + 1) left
        ⟨t.result, t.attempts + 1, RETRY_DELAY_MS :: t.delays⟩
      else ⟨.error e, 1, []⟩

def retryFetch (f : Nat → Except String (List Tweet)) : FetchTrace :=
  retryLoop f 0 MAX_RETRIES

/-- Everything one iteration of the source loop of `curateContentForUser`
produces for one allocated source (inside its try/catch): the cap
`Math.min(callsToUse, 1)` actually requested, the retry trace, the normalized
items (empty on failure) and whether `recordAPICall` ran. -/
structure SourceOutcome where
  requested : Nat
  trace : FetchTrace
  items : List CItem
  recorded : Bool
  failMsg : Option String
deriving Repr

def fetchFailPre : String := "❌ Failed to fetch from @"
def msgSep : String := ": "

def processSource (a : Alloc) (f : Nat → Nat → Except String (List Tweet)) : SourceOutcome :=
  let tweetsToFetch := min a.callsToUse 1
  let tr := retryFetch (fun k => f k tweetsToFetch)
  match tr.result with
  | .ok ts =>
    { requested := tweetsToFetch
      trace := tr
      items := ts.map (fun t => transformTweetToContentItem t a.source.id a.source.handle)
      recorded := true
      failMsg := none }
  | .error e =>
    { requested := tweetsToFetch
      trace := tr
      items := []
      recorded := false
      failMsg := some (fetchFailPre ++ a.source.handle ++ msgSep ++ e) }

/-- The source loop: sequential, each failure caught and recorded for that
source alone (`// Continue with other sources even if one fails`).  The fetch
environment is indexed by position in the allocation list, then by attempt
index and requested count. -/
def processAllSources (alloc : List Alloc) (fetch : Nat → Nat → Nat → Except String (List Tweet)) :
    List CItem × List String :=
  go 0 alloc
where
  go (i : Nat) : List Alloc → List CItem × List String
    | [] => ([], [])
    | a :: rest =>
      let o := processSource a (fetch i)
      let r := go (i + 1) rest
      (o.items ++ r.1, (o.failMsg.toList) ++ r.2)

def rateLimitFallback : String := "Rate limit exceeded"

/-- `TwitterCurationService.curateContentForUser` (the progress-reporting
version): throw when the quota check denies, otherwise sort by priority,
compute the remaining budget, allocate, and run the per-source loop.  The
returned strings are the per-source failure records. -/
def curateContentForUser (usage : UsageLookup) (sources : List TwSource)
    (fetch : Nat → Nat → Nat → Except String (List Tweet)) :
    Except String (List CItem × List String) :=
  let chk := canMakeAPICall usage
  if chk.canCall then
    let prioritySources := sources.mergeSort (fun a b => a.priority ≤ b.priority)
    let remainingCalls := getRemainingCalls usage
    let sourcesToFetch := distributeCalls prioritySources remainingCalls
    .ok (processAllSources sourcesToFetch fetch)
  else .error (chk.reason.getD rateLimitFallback)

/-! ## RSS curation (RSSCurationService of services/rss.ts)

`fetchRSSFeed` is a network call returning an already parsed feed (the API
proxy runs `parseRSSXML` server-side); the environment maps a source index to
its outcome.  `Math.random()` of the engagement heuristic arrives as a jitter
environment indexed by source and item. -/

def rssFailPre : String := "❌ Failed to fetch from "

/-- What one iteration of the RSS source loop contributes: the first ten feed
items transformed, or nothing plus a failure progress record when the fetch
threw (the catch block continues with the next source). -/
def rssSourceContrib (env : JsEnv) (source : RSSSource)
    (fetched : Except String RSSFeedRec) (jitter : Nat → Nat) : List CItem × List String :=
  match fetched with
  | .ok feed =>
    (((feed.items.take 10).enum).map
      (fun p => transformRSSItemToContentItem env (jitter p.1) p.2 source), [])
  | .error e =>
    ([], [rssFailPre ++ (source.display_name.getD source.handle) ++ msgSep ++ e])

/-- `RSSCurationService.curateRSSContent`: sequential loop, per-source
failures caught and recorded, never throwing. -/
def curateRSSContent (env : JsEnv) (sources : List RSSSource)
    (fetchFeed : Nat → Except String RSSFeedRec) (jitter : Nat → Nat → Nat) :
    List CItem × List String :=
  go 0 sources
where
  go (i : Nat) : List RSSSource → List CItem × List String
    | [] => ([], [])
    | s :: rest =>
      let c := rssSourceContrib env s (fetchFeed i) (jitter i)
      let r := go (i + 1) rest
      (c.1 ++ r.1, c.2 ++ r.2)

/-! ## Unified orchestrator (UnifiedContentCurationService.curateAllContent) -/

inductive Platform
  | twitter
  | rss
deriving DecidableEq, Repr

/-- A `ContentSource` row as the orchestrator reads it. -/
structure CSource where
  id : String
  handle : String
  display_name : Option String
  platform : Platform
  feed_url : Option String
  priority : Nat
  is_active : Bool
deriving DecidableEq, Repr

def toRSSSource (s : CSource) : RSSSource :=
  ⟨s.id, s.handle, s.display_name, s.feed_url, s.priority⟩

def toTwSource (s : CSource) : TwSource := ⟨s.id, s.handle, s.priority⟩

def noSourcesError : String :=
  "No active content sources found. Please add some sources first."

def rateLimitedPre : String := "Twitter rate limited: "

/-- Template interpolation `${reason}` of an optional string: `undefined`
prints as the literal text. -/
def reasonText (o : Option String) : String := o.getD "undefined"

/-- The save loop of `curateAllContent`: every `createContentItem` failure is
caught and merely not counted. -/
def countSaved (save : Nat → Except String Unit) : Nat → List CItem → Nat
  | _, [] => 0
  | i, _ :: rest =>
    (match save i with | .ok _ => 1 | .error _ => 0) + countSaved save (i + 1) rest

/-- The RSS block of `curateAllContent`: run the RSS curation when RSS
sources exist. -/
def rssPhaseRun (env : JsEnv) (rssSources : List CSource)
    (fetchFeed : Nat → Except String RSSFeedRec) (jitter : Nat → Nat → Nat) :
    List CItem × List String :=
  if rssSources.length > 0 then
    curateRSSContent env (rssSources.map toRSSSource) fetchFeed jitter
  else ([], [])

/-- The social block of `curateAllContent`: when Twitter sources exist, check
the quota; run the social curation when allowed, otherwise skip the whole
phase with a single progress record and no error. -/
def socialPhase (usage : UsageLookup) (twitterSources : List CSource)
    (fetchTw : Nat → Nat → Nat → Except String (List Tweet)) :
    Except String (List CItem × List String) :=
  if twitterSources.length > 0 then
    let chk := canMakeAPICall usage
    if chk.canCall then
      curateContentForUser usage (twitterSources.map toTwSource) fetchTw
    else .ok ([], [rateLimitedPre ++ reasonText chk.reason])
  else .ok ([], [])

/-- `UnifiedContentCurationService.curateAllContent`: throw when there is no
active source; run the RSS phase (never throwing); check the social quota and
either run the social phase or skip it with a progress record; save
everything, counting successes.  The progress channel is modelled by the
failure/skip records the claims inspect. -/
def curateAllContent (env : JsEnv) (sources : List CSource) (usage : UsageLookup)
    (fetchFeed : Nat → Except String RSSFeedRec) (jitter : Nat → Nat → Nat)
    (fetchTw : Nat → Nat → Nat → Except String (List Tweet))
    (save : Nat → Except String Unit) : Except String (Nat × List String) :=
  let activeSources := sources.filter (fun s => s.is_active)
  if activeSources.isEmpty then .error noSourcesError
  else
    let twitterSources := activeSources.filter (fun s => s.platform = Platform.twitter)
    let rssSources := activeSources.filter (fun s => s.platform = Platform.rss)
    let rssPhase := rssPhaseRun env rssSources fetchFeed jitter
    match socialPhase usage twitterSources fetchTw with
    | .error e => .error e
    | .ok tw =>
      let allItems := rssPhase.1 ++ tw.1
      .ok (countSaved save 0 allItems, rssPhase.2 ++ tw.2)

/-! ## Scheduler tick (ContentSchedulerService.executeScheduledJobs) -/

structure SchedJob where
  userId : String
  scheduledFor : Int
  priority : Nat
  executed : Bool
deriving DecidableEq, Repr

def DAY_MS : Int := 24 * 60 * 60 * 1000

/-- One job attempt: the try branch marks the job executed after a successful
run, the catch branch marks it executed as well (`// Mark as executed to
prevent retry loops`). -/
def runAndMark (raised : Bool) (j : SchedJob) : SchedJob :=
  if raised then { j with executed := true }
  else { j with executed := true }

/-- One scheduler tick: pick the due, unexecuted jobs; attempt each and mark
it executed whatever the outcome; prune executed jobs older than 24 hours.
Returns the new job list and the picked jobs.  `runRaises i` tells whether the
attempted run of the i-th job of the list raised. -/
def executeScheduledJobs (jobs : List SchedJob) (now : Int) (runRaises : Nat → Bool) :
    List SchedJob × List SchedJob :=
  let jobsToExecute := jobs.filter (fun j => !j.executed && decide (j.scheduledFor ≤ now))
  let updated := jobs.enum.map (fun p =>
    if !p.2.executed && decide (p.2.scheduledFor ≤ now) then runAndMark (runRaises p.1) p.2
    else p.2)
  let pruned := updated.filter (fun j => !j.executed || decide (now - DAY_MS < j.scheduledFor))
  (pruned, jobsToExecute)

/-! ## Concrete inputs used by witnesses and counterexamples -/

def c2srcA : TwSource := ⟨"a", "a", 1⟩
def c2srcB : TwSource := ⟨"b", "b", 1⟩
def c2srcC : TwSource := ⟨"c", "c", 1⟩
def c2srcD : TwSource := ⟨"d", "d", 1⟩

def sumAlloc (l : List Alloc) : Nat := (l.map Alloc.callsToUse).sum

/-- The cleaned title of a raw RSS item block, exactly as `parseRSSItem`
computes it. -/
def itemCleanTitle (b : List Char) : List Char :=
  cleanText (optStr (extractCData "<title" "</title>" b))

/-- The cleaned description of a raw RSS item block. -/
def itemCleanDesc (b : List Char) : List Char :=
  cleanText (optStr (extractCData "<description" "</description>" b))

/-- A raw RSS item block whose cleaned title and description are both empty:
these are the blocks `parseRSSItem` drops. -/
def rssItemDropped (b : List Char) : Bool :=
  (itemCleanTitle b).isEmpty && (itemCleanDesc b).isEmpty

/-- The cleaned title of a raw Atom entry block, as `parseAtomEntry` computes
it. -/
def entryCleanTitle (b : List Char) : List Char :=
  cleanText (optStr (extractSimple "<title" "</title>" b))

/-- The cleaned description of a raw Atom entry block (summary falling back
to content). -/
def entryCleanDesc (b : List Char) : List Char :=
  cleanText (orNonempty (optStr (extractSimple "<summary" "</summary>" b))
    (optStr (extractSimple "<content" "</content>" b)))

/-- A raw Atom entry block whose cleaned title and description are both
empty: these are the entries `parseAtomEntry` drops. -/
def atomEntryDropped (b : List Char) : Bool :=
  (entryCleanTitle b).isEmpty && (entryCleanDesc b).isEmpty

/-- An arbitrary fixed impure environment for the concrete scenarios; the
fallback strings are chosen so that a fallback is visibly distinct from a
parsed value. -/
def c7env : JsEnv := ⟨"now-fallback", "nonce"⟩

/-- The feed document of the spec scenario for C7. -/
def c7doc : String :=
  "<rss><channel><title>T</title><item><title>A</title><description>d</description><pubDate>Mon, 01 Jan 2024 00:00:00 GMT</pubDate></item></channel></rss>"

def c7emptyItem : RSSItemRec := ⟨"", "", "", "", "", ""⟩

/-- One non-empty raw item, repeated to build a feed with more than 20
items. -/
def c4item : String := "<item><title>t</title></item>"

/-- An RSS 2.0 document with 21 raw items, none of them empty. -/
def c4doc : String :=
  "<rss><channel>" ++ String.join (List.replicate 21 c4item) ++ "</channel></rss>"

def c10env : JsEnv := ⟨"now-c10", "nonce-c10"⟩

def c5Source : TwSource := ⟨"s1", "handle1", 1⟩
def c5alloc : Alloc := ⟨c5Source, 3⟩
def c5boomMsg : String := "boom"
def c5rateMsg : String := "API Error: 429 - too many"

/-- A fetch environment whose first attempt is rate limited and whose second
succeeds. -/
def c5f429 : Nat → Except String (List Tweet) :=
  fun k => if k = 0 then Except.error c5rateMsg else Except.ok []

/-- A fetch environment that always fails with a non-429 error. -/
def c5fBoom1 : Nat → Except String (List Tweet) := fun _ => Except.error c5boomMsg

def c5fBoom : Nat → Nat → Except String (List Tweet) := fun _ _ => Except.error c5boomMsg

def c5fOk : Nat → Nat → Except String (List Tweet) := fun _ _ => Except.ok []

/-- One active Twitter source, for the C1 witness run. -/
def c1twSource : CSource := ⟨"t1", "handleT", none, Platform.twitter, none, 1, true⟩

def c1fetchFeed : Nat → Except String RSSFeedRec := fun _ => Except.error c5boomMsg

def c1jitter : Nat → Nat → Nat := fun _ _ => 0

def c1saveOk : Nat → Except String Unit := fun _ => Except.ok ()

def c1fetchTw : Nat → Nat → Nat → Except String (List Tweet) := fun _ _ _ => Except.error c5boomMsg

def c8jobDue : SchedJob := ⟨"u1", 0, 1, false⟩
def c8jobLater : SchedJob := ⟨"u1", 1000000, 2, false⟩
def c8raise : Nat → Bool := fun _ => true
def c8noRaise : Nat → Bool := fun _ => false

/-- An RSS 2.0 document with one well-formed, non-empty item whose
description text happens to contain the raw substring chosen by the Atom
dialect detector. -/
def c10doc : String :=
  "<rss><channel><item><title>Hello</title><description>see <feed here</description></item></channel></rss>"

/-! # Theorems -/

theorem strAppendAssoc (a b c : String) : a ++ b ++ c = a ++ (b ++ c) := by
  apply String.ext
  simp only [String.data_append, List.append_assoc]

theorem allocTier_sum_add (cps : Nat) (ss : List TwSource) (rem : Nat) :
    sumAlloc (allocTier cps ss rem).1 + (allocTier cps ss rem).2 = rem := by
  induction ss generalizing rem with
  | nil => simp [allocTier, sumAlloc]
  | cons s ss ih =>
    simp only [allocTier]
    split
    · simp only [sumAlloc, List.map_cons, List.sum_cons] at *
      have h2 := ih (rem - min cps rem)
      have h3 : min cps rem ≤ rem := Nat.min_le_right cps rem
      omega
    · exact ih rem

theorem allocTier_mem_pos (cps : Nat) (ss : List TwSource) (rem : Nat) :
    ∀ a ∈ (allocTier cps ss rem).1, 1 ≤ a.callsToUse := by
  induction ss generalizing rem with
  | nil => simp [allocTier]
  | cons s ss ih =>
    simp only [allocTier]
    split
    · rename_i hpos
      intro a ha
      rcases List.mem_cons.mp ha with h | h
      · subst h; simpa using hpos
      · exact ih _ a h
    · exact ih rem

theorem tierStep_sum_add (ss : List TwSource) (tgt rem : Nat) :
    sumAlloc (tierStep ss tgt rem).1 + (tierStep ss tgt rem).2 = rem := by
  unfold tierStep
  split
  · exact allocTier_sum_add _ _ _
  · simp [sumAlloc]

theorem tierStep_mem_pos (ss : List TwSource) (tgt rem : Nat) :
    ∀ a ∈ (tierStep ss tgt rem).1, 1 ≤ a.callsToUse := by
  unfold tierStep
  split
  · exact allocTier_mem_pos _ _ _
  · simp

theorem distributeCalls_sum_le (sources : List TwSource) (t : Nat) :
    sumAlloc (distributeCalls sources t) ≤ t := by
  by_cases ht : t = 0
  · simp [distributeCalls, ht, sumAlloc]
  · rcases e1 : tierStep (sources.filter (fun s => s.priority = 1)) (max 1 (t / 2)) t with ⟨l1, r1⟩
    rcases e2 : tierStep (sources.filter (fun s => s.priority = 2)) (max 1 (t * 35 / 100)) r1 with ⟨l2, r2⟩
    rcases e3 : tierStep (sources.filter (fun s => s.priority = 3)) r2 r2 with ⟨l3, r3⟩
    have hd : distributeCalls sources t = l1 ++ l2 ++ l3 := by
      unfold distributeCalls
      rw [if_neg ht]
      simp only [e1]
      simp only [e2]
      simp only [e3]
    have h1 := tierStep_sum_add (sources.filter (fun s => s.priority = 1)) (max 1 (t / 2)) t
    have h2 := tierStep_sum_add (sources.filter (fun s => s.priority = 2)) (max 1 (t * 35 / 100)) r1
    have h3 := tierStep_sum_add (sources.filter (fun s => s.priority = 3)) r2 r2
    simp only [e1] at h1
    simp only [e2] at h2
    simp only [e3] at h3
    rw [hd]
    simp only [sumAlloc, List.map_append, List.sum_append] at *
    omega

theorem distributeCalls_mem_pos (sources : List TwSource) (t : Nat) :
    ∀ a ∈ distributeCalls sources t, 1 ≤ a.callsToUse := by
  unfold distributeCalls
  split
  · simp
  · intro a ha
    simp only [List.mem_append] at ha
    rcases ha with (h | h) | h
    · exact tierStep_mem_pos _ _ _ a h
    · exact tierStep_mem_pos _ _ _ a h
    · exact tierStep_mem_pos _ _ _ a h

/-- C2 (amended): for every source list and every `totalCalls ≥ 3`, the sum of
the allocated calls is at most `totalCalls`, and every source that appears in
the allocation receives at least 1 call.  (A source in a non-empty tier can be
omitted from the allocation entirely when the running remainder is exhausted
before it is reached — see the counterexample.) -/
theorem claim_c2_allocation_amended (sources : List TwSource) (totalCalls : Nat)
    (h : 3 ≤ totalCalls) :
    sumAlloc (distributeCalls sources totalCalls) ≤ totalCalls
    ∧ ∀ a ∈ distributeCalls sources totalCalls, 1 ≤ a.callsToUse :=
  ⟨distributeCalls_sum_le sources totalCalls, distributeCalls_mem_pos sources totalCalls⟩

theorem claim_c2_allocation_amended_witness :
    3 ≤ 3
    ∧ (sumAlloc (distributeCalls [c2srcA, c2srcB, c2srcC, c2srcD] 3) ≤ 3
      ∧ ∀ a ∈ distributeCalls [c2srcA, c2srcB, c2srcC, c2srcD] 3, 1 ≤ a.callsToUse) :=
  ⟨by decide, claim_c2_allocation_amended [c2srcA, c2srcB, c2srcC, c2srcD] 3 (by decide)⟩

/-- C2 counterexample: with four tier-1 sources and `totalCalls = 3`
(`3 ≥ 3`, tier 1 non-empty and containing source `d`), `distributeCalls`
allocates nothing to source `d`: the original claim that every source of a
non-empty tier receives at least 1 call is false. -/
theorem claim_c2_counterexample :
    (([c2srcA, c2srcB, c2srcC, c2srcD].filter (fun s => s.priority = 1)).length = 4
      ∧ c2srcD ∈ [c2srcA, c2srcB, c2srcC, c2srcD].filter (fun s => s.priority = 1))
    ∧ (distributeCalls [c2srcA, c2srcB, c2srcC, c2srcD] 3).filter
        (fun a => a.source = c2srcD) = [] := by
  decide

/-- C3: for a usage record carrying `calls_used = u`, `getRemainingCalls`
returns `max(0, 3 - u)`, `canMakeAPICall` denies exactly when `u ≥ 3`, and a
denial reason contains the concrete used and limit counts `u/3`. -/
theorem claim_c3_rate_limit (u : Nat) :
    getRemainingCalls (Except.ok (some u)) = Int.toNat (max 0 (3 - (u : Int)))
    ∧ ((canMakeAPICall (Except.ok (some u))).canCall = false ↔ 3 ≤ u)
    ∧ (3 ≤ u → ∃ pre post, (canMakeAPICall (Except.ok (some u))).reason =
        some (pre ++ (toString u ++ "/" ++ toString DAILY_LIMIT) ++ post)) := by
  refine ⟨?_, ?_, ?_⟩
  · simp only [getRemainingCalls, Option.getD, DAILY_LIMIT]
    omega
  · simp only [canMakeAPICall, Option.getD, DAILY_LIMIT]
    split
    · simpa using by omega
    · rename_i hlt
      simp at hlt ⊢
      omega
  · intro h
    refine ⟨limitReasonPre, limitReasonPost, ?_⟩
    simp only [canMakeAPICall, Option.getD, DAILY_LIMIT]
    rw [if_pos (by simpa using h)]
    simp only [Option.some.injEq, strAppendAssoc]

theorem claim_c3_rate_limit_witness :
    getRemainingCalls (Except.ok (some 3)) = Int.toNat (max 0 (3 - (3 : Int)))
    ∧ ((canMakeAPICall (Except.ok (some 3))).canCall = false ↔ 3 ≤ 3)
    ∧ (∃ pre post, (canMakeAPICall (Except.ok (some 3))).reason =
        some (pre ++ (toString 3 ++ "/" ++ toString DAILY_LIMIT) ++ post)) :=
  ⟨(claim_c3_rate_limit 3).1, (claim_c3_rate_limit 3).2.1,
    (claim_c3_rate_limit 3).2.2 (by decide)⟩

/-- C9: the rate limiter fails closed on storage errors: a throwing usage
lookup makes `canMakeAPICall` deny with the fixed reason
`Error checking rate limit`, makes `getRemainingCalls` return 0, and makes
the social curation entry point throw instead of calling the platform API. -/
theorem claim_c9_fails_closed :
    canMakeAPICall (Except.error ()) = ⟨false, some storageErrorReason⟩
    ∧ getRemainingCalls (Except.error ()) = 0
    ∧ ∀ sources fetch, curateContentForUser (Except.error ()) sources fetch =
        Except.error storageErrorReason := by
  refine ⟨rfl, rfl, fun sources fetch => ?_⟩
  rfl

/-- C6: classification precedence for both normalizers: a breaking-tier match
(keywords, or engagement above 1000 for tweets) wins over everything,
otherwise transfer keywords, otherwise team keywords, otherwise `general`;
in particular text containing both a breaking and a transfer keyword
classifies as breaking. -/
theorem claim_c6_classification_precedence :
    (∀ title description : String,
      (rssKwBreaking title description = true →
        classifyRSSText title description = ContentType.breaking)
      ∧ (rssKwBreaking title description = false →
          rssKwTransfer title description = true →
          classifyRSSText title description = ContentType.transfer)
      ∧ (rssKwBreaking title description = false →
          rssKwTransfer title description = false →
          rssKwTeam title description = true →
          classifyRSSText title description = ContentType.team)
      ∧ (rssKwBreaking title description = false →
          rssKwTransfer title description = false →
          rssKwTeam title description = false →
          classifyRSSText title description = ContentType.general))
    ∧ (∀ (text : String) (eng : Nat),
      (tweetKwBreaking text eng = true →
        classifyTweetText text eng = ContentType.breaking)
      ∧ (1000 < eng → classifyTweetText text eng = ContentType.breaking)
      ∧ (tweetKwBreaking text eng = false → tweetKwTransfer text = true →
          classifyTweetText text eng = ContentType.transfer)
      ∧ (tweetKwBreaking text eng = false → tweetKwTransfer text = false →
          tweetKwTeam text = true → classifyTweetText text eng = ContentType.team)
      ∧ (tweetKwBreaking text eng = false → tweetKwTransfer text = false →
          tweetKwTeam text = false → classifyTweetText text eng = ContentType.general))
    ∧ classifyRSSText "Breaking news" "a transfer deal is agreed" = ContentType.breaking
    ∧ classifyTweetText "BREAKING: transfer agreed" 0 = ContentType.breaking := by
  refine ⟨fun title description => ⟨?_, ?_, ?_, ?_⟩,
    fun text eng => ⟨?_, ?_, ?_, ?_, ?_⟩, by decide, by decide⟩
  · intro h1; simp [classifyRSSText, h1]
  · intro h1 h2; simp [classifyRSSText, h1, h2]
  · intro h1 h2 h3; simp [classifyRSSText, h1, h2, h3]
  · intro h1 h2 h3; simp [classifyRSSText, h1, h2, h3]
  · intro h1; simp [classifyTweetText, h1]
  · intro h1
    have hb : tweetKwBreaking text eng = true := by
      simp [tweetKwBreaking]
      omega
    simp [classifyTweetText, hb]
  · intro h1 h2; simp [classifyTweetText, h1, h2]
  · intro h1 h2 h3; simp [classifyTweetText, h1, h2, h3]
  · intro h1 h2 h3; simp [classifyTweetText, h1, h2, h3]

theorem claim_c6_classification_precedence_witness :
    rssKwBreaking "Breaking news" "a transfer deal is agreed" = true
    ∧ classifyRSSText "Breaking news" "a transfer deal is agreed" = ContentType.breaking
    ∧ classifyTweetText "quiet afternoon" 1001 = ContentType.breaking :=
  ⟨by decide,
    (claim_c6_classification_precedence.1 "Breaking news" "a transfer deal is agreed").1
      (by decide),
    (claim_c6_classification_precedence.2.1 "quiet afternoon" 1001).2.1 (by decide)⟩

theorem parseRSSItem_isNone_eq (env : JsEnv) (b : List Char) :
    (parseRSSItem env b).isNone = rssItemDropped b := by
  by_cases h1 : (cleanText (optStr (extractCData "<title" "</title>" b))).isEmpty = true
  · by_cases h2 : (cleanText (optStr (extractCData "<description" "</description>" b))).isEmpty = true
    · simp [parseRSSItem, rssItemDropped, itemCleanTitle, itemCleanDesc, h1, h2]
    · simp [parseRSSItem, rssItemDropped, itemCleanTitle, itemCleanDesc, h1, h2]
  · simp [parseRSSItem, rssItemDropped, itemCleanTitle, itemCleanDesc, h1]

theorem parseAtomEntry_isNone_eq (env : JsEnv) (b : List Char) :
    (parseAtomEntry env b).isNone = atomEntryDropped b := by
  by_cases h1 : (cleanText (optStr (extractSimple "<title" "</title>" b))).isEmpty = true
  · by_cases h2 : (cleanText (orNonempty (optStr (extractSimple "<summary" "</summary>" b))
        (optStr (extractSimple "<content" "</content>" b)))).isEmpty = true
    · simp [parseAtomEntry, atomEntryDropped, entryCleanTitle, entryCleanDesc, h1, h2]
    · simp [parseAtomEntry, atomEntryDropped, entryCleanTitle, entryCleanDesc, h1, h2]
  · simp [parseAtomEntry, atomEntryDropped, entryCleanTitle, entryCleanDesc, h1]

theorem length_filterMap_add_countP_none {α β : Type} (f : α → Option β) (l : List α) :
    (l.filterMap f).length + l.countP (fun a => (f a).isNone) = l.length := by
  induction l with
  | nil => simp
  | cons a l ih =>
    cases hfa : f a <;>
      simp only [List.filterMap_cons, List.countP_cons, hfa, Option.isNone_none,
        Option.isNone_some, List.length_cons] <;>
      simp <;> omega

theorem parseRSSXML_items_of_not_atom (env : JsEnv) (xml : String)
    (h : isAtomFeed xml.data = false) :
    (parseRSSXML env xml).items =
      ((tagBlocks "item" xml.data).take 20).filterMap (parseRSSItem env) := by
  simp [parseRSSXML, h]

theorem parseRSSXML_items_of_atom (env : JsEnv) (xml : String)
    (h : isAtomFeed xml.data = true) :
    (parseRSSXML env xml).items =
      ((tagBlocks "entry" xml.data).take 20).filterMap (parseAtomEntry env) := by
  simp [parseRSSXML, h]

/-- C4 (amended): for every feed document, the parser examines only the first
20 raw item (or entry) blocks in document order; among those it returns
exactly the blocks whose cleaned title or description is non-empty, so the
item count is `min(N, 20) - k` with `k` counted over the first 20 blocks
only.  (The original claim without the 20-item cap is refuted by a 21-item
feed — see the counterexample.) -/
theorem claim_c4_drop_count_amended (env : JsEnv) (xml : String) :
    (isAtomFeed xml.data = false →
      (parseRSSXML env xml).items.length =
        ((tagBlocks "item" xml.data).take 20).length -
          ((tagBlocks "item" xml.data).take 20).countP (fun b => rssItemDropped b))
    ∧ (isAtomFeed xml.data = true →
      (parseRSSXML env xml).items.length =
        ((tagBlocks "entry" xml.data).take 20).length -
          ((tagBlocks "entry" xml.data).take 20).countP (fun b => atomEntryDropped b)) := by
  have hfun1 : (fun b => (parseRSSItem env b).isNone) = (fun b => rssItemDropped b) :=
    funext (parseRSSItem_isNone_eq env)
  have hfun2 : (fun b => (parseAtomEntry env b).isNone) = (fun b => atomEntryDropped b) :=
    funext (parseAtomEntry_isNone_eq env)
  constructor
  · intro h
    rw [parseRSSXML_items_of_not_atom env xml h]
    have hl := length_filterMap_add_countP_none (parseRSSItem env)
      ((tagBlocks "item" xml.data).take 20)
    rw [hfun1] at hl
    omega
  · intro h
    rw [parseRSSXML_items_of_atom env xml h]
    have hl := length_filterMap_add_countP_none (parseAtomEntry env)
      ((tagBlocks "entry" xml.data).take 20)
    rw [hfun2] at hl
    omega

theorem claim_c4_drop_count_amended_witness :
    isAtomFeed c7doc.data = false
    ∧ (parseRSSXML c7env c7doc).items.length =
        ((tagBlocks "item" c7doc.data).take 20).length -
          ((tagBlocks "item" c7doc.data).take 20).countP (fun b => rssItemDropped b) :=
  ⟨by decide, (claim_c4_drop_count_amended c7env c7doc).1 (by decide)⟩

/-- C4 counterexample: a feed with `N = 21` raw items and `k = 0` empty ones
parses to 20 items, not `N - k = 21`: the claim without the per-fetch cap of
20 is false. -/
theorem claim_c4_counterexample :
    isAtomFeed c4doc.data = false
    ∧ (tagBlocks "item" c4doc.data).length = 21
    ∧ (tagBlocks "item" c4doc.data).countP (fun b => rssItemDropped b) = 0
    ∧ (parseRSSXML c7env c4doc).items.length = 20
    ∧ (parseRSSXML c7env c4doc).items.length ≠
        (tagBlocks "item" c4doc.data).length -
          (tagBlocks "item" c4doc.data).countP (fun b => rssItemDropped b) := by
  decide

/-- C7: the spec scenario document parses to exactly one item, titled `A`
with description `d`, and its publish date normalizes (through
`parseRSSDate`) to the ISO timestamp of 2024-01-01 00:00:00 UTC rather than
to the current-time fallback. -/
theorem claim_c7_scenario :
    (parseRSSXML c7env c7doc).items.length = 1
    ∧ ((parseRSSXML c7env c7doc).items.headD c7emptyItem).title = "A"
    ∧ ((parseRSSXML c7env c7doc).items.headD c7emptyItem).description = "d"
    ∧ parseRSSDate c7env ((parseRSSXML c7env c7doc).items.headD c7emptyItem).pubDate =
        "2024-01-01T00:00:00.000Z"
    ∧ isISOTimestamp (parseRSSDate c7env
        ((parseRSSXML c7env c7doc).items.headD c7emptyItem).pubDate) = true := by
  decide

/-- C10: dialect detection is a substring test over the whole document: any
input containing `<feed` (or the Atom namespace string) anywhere takes the
Atom path and extracts only `<entry>` blocks; consequently an RSS 2.0
document with a well-formed, non-empty `<item>` whose description contains
the raw text `<feed` parses to zero items. -/
theorem claim_c10_substring_dialect :
    (∀ (env : JsEnv) (xml : String),
      (hasSub xml.data atomFeedMarker.data || hasSub xml.data atomNsMarker.data) = true →
      isAtomFeed xml.data = true
      ∧ (parseRSSXML env xml).items =
          ((tagBlocks "entry" xml.data).take 20).filterMap (parseAtomEntry env))
    ∧ hasSub c10doc.data atomFeedMarker.data = true
    ∧ (tagBlocks "item" c10doc.data).length = 1
    ∧ (∀ b ∈ tagBlocks "item" c10doc.data, (parseRSSItem c10env b).isSome = true)
    ∧ (parseRSSXML c10env c10doc).items = [] := by
  refine ⟨fun env xml h => ?_, by decide, by decide, by decide, by decide⟩
  have ha : isAtomFeed xml.data = true := by
    simpa [isAtomFeed] using h
  exact ⟨ha, parseRSSXML_items_of_atom env xml ha⟩

theorem claim_c10_substring_dialect_witness :
    isAtomFeed c10doc.data = true
    ∧ (parseRSSXML c10env c10doc).items =
        ((tagBlocks "entry" c10doc.data).take 20).filterMap (parseAtomEntry c10env) :=
  claim_c10_substring_dialect.1 c10env c10doc (by decide)

theorem retryLoop_attempts_pos (f : Nat → Except String (List Tweet)) (k left : Nat) :
    1 ≤ (retryLoop f k left).attempts := by
  cases left with
  | zero => cases hf : f k <;> simp [retryLoop, hf]
  | succ n =>
    cases hf : f k with
    | ok ts => simp [retryLoop, hf]
    | error e =>
      by_cases h429 : is429Error e = true
      · simp [retryLoop, hf, h429]
      · simp [retryLoop, hf, h429]

theorem retryLoop_attempts_le (f : Nat → Except String (List Tweet)) (k left : Nat) :
    (retryLoop f k left).attempts ≤ left + 1 := by
  induction left generalizing k with
  | zero => cases hf : f k <;> simp [retryLoop, hf]
  | succ n ih =>
    cases hf : f k with
    | ok ts => simp [retryLoop, hf]
    | error e =>
      by_cases h429 : is429Error e = true
      · have := ih (k + 1)
        simp only [retryLoop, hf, h429, if_true]
        simp
        omega
      · simp [retryLoop, hf, h429]

theorem retryLoop_delays_eq (f : Nat → Except String (List Tweet)) (k left : Nat) :
    (retryLoop f k left).delays =
      List.replicate ((retryLoop f k left).attempts - 1) RETRY_DELAY_MS := by
  induction left generalizing k with
  | zero => cases hf : f k <;> simp [retryLoop, hf]
  | succ n ih =>
    cases hf : f k with
    | ok ts => simp [retryLoop, hf]
    | error e =>
      by_cases h429 : is429Error e = true
      · have h1 := retryLoop_attempts_pos f (k + 1) n
        have h2 := ih (k + 1)
        simp only [retryLoop, hf, h429, if_true]
        simp only [Nat.add_sub_cancel]
        rw [h2]
        rcases Nat.exists_eq_add_of_le h1 with ⟨m, hm⟩
        rw [hm]
        simp [List.replicate_add, List.replicate_one]
      · simp [retryLoop, hf, h429]

theorem retryLoop_retry_only_429 (f : Nat → Except String (List Tweet)) (k left : Nat) :
    ∀ j, j + 1 < (retryLoop f k left).attempts →
      ∃ e, f (k + j) = Except.error e ∧ is429Error e = true := by
  induction left generalizing k with
  | zero =>
    intro j hj
    cases hf : f k <;> simp [retryLoop, hf] at hj
  | succ n ih =>
    intro j hj
    cases hf : f k with
    | ok ts => simp [retryLoop, hf] at hj
    | error e =>
      by_cases h429 : is429Error e = true
      · simp only [retryLoop, hf, h429, if_true] at hj
        cases j with
        | zero => exact ⟨e, by simpa using hf, h429⟩
        | succ j =>
          have hj2 : j + 1 < (retryLoop f (k + 1) n).attempts := by
            simpa using Nat.lt_of_succ_lt_succ hj
          obtain ⟨e2, he2, h4⟩ := ih (k + 1) j hj2
          refine ⟨e2, ?_, h4⟩
          rw [show k + (j + 1) = k + 1 + j by omega]
          exact he2
      · simp [retryLoop, hf, h429] at hj

theorem retryLoop_non429 (f : Nat → Except String (List Tweet)) (k left : Nat)
    (e : String) (hf : f k = Except.error e) (h : is429Error e = false) :
    retryLoop f k left = ⟨Except.error e, 1, []⟩ := by
  cases left <;> simp [retryLoop, hf, h]

theorem processSource_requested (a : Alloc) (f : Nat → Nat → Except String (List Tweet)) :
    (processSource a f).requested = min a.callsToUse 1 := by
  unfold processSource
  dsimp only
  split <;> rfl

theorem processSource_fail (a : Alloc) (f : Nat → Nat → Except String (List Tweet))
    (e : String)
    (h : (retryFetch (fun k => f k (min a.callsToUse 1))).result = Except.error e) :
    (processSource a f).items = []
    ∧ (processSource a f).failMsg =
        some (fetchFailPre ++ a.source.handle ++ msgSep ++ e)
    ∧ (processSource a f).recorded = false := by
  unfold processSource
  dsimp only
  split
  · rename_i ts heq
    rw [h] at heq
    cases heq
  · rename_i e2 heq
    rw [h] at heq
    cases heq
    exact ⟨rfl, rfl, rfl⟩

theorem processAllSources_go_items (fetch : Nat → Nat → Nat → Except String (List Tweet))
    (alloc : List Alloc) (i : Nat) :
    (processAllSources.go fetch i alloc).1 =
      ((alloc.enumFrom i).map (fun p => (processSource p.2 (fetch p.1)).items)).join := by
  induction alloc generalizing i with
  | nil => simp [processAllSources.go]
  | cons a rest ih =>
    simp [processAllSources.go, List.enumFrom, ih (i + 1)]

theorem processAllSources_items (alloc : List Alloc)
    (fetch : Nat → Nat → Nat → Except String (List Tweet)) :
    (processAllSources alloc fetch).1 =
      (alloc.enum.map (fun p => (processSource p.2 (fetch p.1)).items)).join := by
  unfold processAllSources
  exact processAllSources_go_items fetch alloc 0

/-- C5: per allocated source the social loop requests at most 1 post
(`min(callsToUse, 1)`) regardless of the allocation; a fetch is attempted at
most `1 + MAX_RETRIES = 3` times; every retry is preceded by exactly one
fixed 15-minute delay; an attempt is followed by another only when it failed
with a message containing `429`; a non-429 failure ends the source
immediately after one attempt; and the batch result is the concatenation of
per-source contributions, a failed source contributing no items and exactly
its own failure record. -/
theorem claim_c5_social_fetch_policy :
    RETRY_DELAY_MS = 15 * 60 * 1000
    ∧ (∀ (a : Alloc) (f : Nat → Nat → Except String (List Tweet)),
      (processSource a f).requested = min a.callsToUse 1
      ∧ (processSource a f).requested ≤ 1)
    ∧ (∀ f : Nat → Except String (List Tweet),
      (retryFetch f).attempts ≤ MAX_RETRIES + 1
      ∧ (retryFetch f).delays =
          List.replicate ((retryFetch f).attempts - 1) RETRY_DELAY_MS
      ∧ (∀ j, j + 1 < (retryFetch f).attempts →
          ∃ e, f j = Except.error e ∧ is429Error e = true)
      ∧ ∀ e, f 0 = Except.error e → is429Error e = false →
          retryFetch f = ⟨Except.error e, 1, []⟩)
    ∧ (∀ (alloc : List Alloc) (fetch : Nat → Nat → Nat → Except String (List Tweet)),
      (processAllSources alloc fetch).1 =
        (alloc.enum.map (fun p => (processSource p.2 (fetch p.1)).items)).join)
    ∧ (∀ (a : Alloc) (f : Nat → Nat → Except String (List Tweet)) (e : String),
      (retryFetch (fun k => f k (min a.callsToUse 1))).result = Except.error e →
      (processSource a f).items = []
      ∧ (processSource a f).failMsg =
          some (fetchFailPre ++ a.source.handle ++ msgSep ++ e)) := by
  refine ⟨rfl, fun a f => ⟨processSource_requested a f, ?_⟩,
    fun f => ⟨retryLoop_attempts_le f 0 MAX_RETRIES,
      retryLoop_delays_eq f 0 MAX_RETRIES,
      fun j hj => by simpa using retryLoop_retry_only_429 f 0 MAX_RETRIES j hj,
      fun e he h429 => retryLoop_non429 f 0 MAX_RETRIES e he h429⟩,
    processAllSources_items,
    fun a f e h => ⟨(processSource_fail a f e h).1, (processSource_fail a f e h).2.1⟩⟩
  rw [processSource_requested a f]
  omega

theorem claim_c5_social_fetch_policy_witness :
    (processSource c5alloc c5fOk).requested = min c5alloc.callsToUse 1
    ∧ (retryFetch c5f429).attempts ≤ MAX_RETRIES + 1
    ∧ (∃ e, c5f429 0 = Except.error e ∧ is429Error e = true)
    ∧ retryFetch c5fBoom1 = ⟨Except.error c5boomMsg, 1, []⟩
    ∧ ((processSource c5alloc c5fBoom).items = []
      ∧ (processSource c5alloc c5fBoom).failMsg =
          some (fetchFailPre ++ c5alloc.source.handle ++ msgSep ++ c5boomMsg)) :=
  ⟨(claim_c5_social_fetch_policy.2.1 c5alloc c5fOk).1,
    (claim_c5_social_fetch_policy.2.2.1 c5f429).1,
    (claim_c5_social_fetch_policy.2.2.1 c5f429).2.2.1 0 (by decide),
    (claim_c5_social_fetch_policy.2.2.1 c5fBoom1).2.2.2 c5boomMsg rfl (by decide),
    claim_c5_social_fetch_policy.2.2.2.2 c5alloc c5fBoom c5boomMsg rfl⟩

theorem curateContentForUser_ok_of_canCall (usage : UsageLookup) (sources : List TwSource)
    (fetch : Nat → Nat → Nat → Except String (List Tweet))
    (h : (canMakeAPICall usage).canCall = true) :
    curateContentForUser usage sources fetch =
      Except.ok (processAllSources
        (distributeCalls (sources.mergeSort (fun a b => a.priority ≤ b.priority))
          (getRemainingCalls usage)) fetch) := by
  unfold curateContentForUser
  simp only [h, if_true]

theorem socialPhase_ok (usage : UsageLookup) (tws : List CSource)
    (fetchTw : Nat → Nat → Nat → Except String (List Tweet)) :
    ∃ p, socialPhase usage tws fetchTw = Except.ok p := by
  unfold socialPhase
  dsimp only
  by_cases hl : tws.length > 0
  · rw [if_pos hl]
    by_cases hc : (canMakeAPICall usage).canCall = true
    · rw [if_pos hc]
      exact ⟨_, curateContentForUser_ok_of_canCall usage (tws.map toTwSource) fetchTw hc⟩
    · rw [if_neg hc]
      exact ⟨_, rfl⟩
  · rw [if_neg hl]
    exact ⟨_, rfl⟩

theorem socialPhase_skip (usage : UsageLookup) (tws : List CSource)
    (fetchTw : Nat → Nat → Nat → Except String (List Tweet))
    (h0 : tws.length > 0) (hc : (canMakeAPICall usage).canCall = false) :
    socialPhase usage tws fetchTw =
      Except.ok ([], [rateLimitedPre ++ reasonText (canMakeAPICall usage).reason]) := by
  unfold socialPhase
  rw [if_pos h0, if_neg (by simp [hc])]

theorem curateRSSContent_go_items (env : JsEnv)
    (fetchFeed : Nat → Except String RSSFeedRec) (jitter : Nat → Nat → Nat)
    (srcs : List RSSSource) (i : Nat) :
    (curateRSSContent.go env fetchFeed jitter i srcs).1 =
      ((srcs.enumFrom i).map
        (fun p => (rssSourceContrib env p.2 (fetchFeed p.1) (jitter p.1)).1)).join := by
  induction srcs generalizing i with
  | nil => simp [curateRSSContent.go]
  | cons s rest ih =>
    simp [curateRSSContent.go, List.enumFrom, ih (i + 1)]

theorem curateRSSContent_items (env : JsEnv) (srcs : List RSSSource)
    (fetchFeed : Nat → Except String RSSFeedRec) (jitter : Nat → Nat → Nat) :
    (curateRSSContent env srcs fetchFeed jitter).1 =
      ((srcs.enum).map
        (fun p => (rssSourceContrib env p.2 (fetchFeed p.1) (jitter p.1)).1)).join := by
  unfold curateRSSContent
  exact curateRSSContent_go_items env fetchFeed jitter srcs 0

/-- C1: the unified curation run throws exactly when the user has no active
source.  With at least one active source it returns normally: a denied social
quota check only appends the skip record `Twitter rate limited: ...` and
contributes no social items, and an individual RSS source whose fetch throws
contributes no items and exactly its own failure record, the other sources
being unaffected (the batch result is the concatenation of independent
per-source contributions). -/
theorem claim_c1_error_iff_no_active (env : JsEnv) (sources : List CSource)
    (usage : UsageLookup) (fetchFeed : Nat → Except String RSSFeedRec)
    (jitter : Nat → Nat → Nat) (fetchTw : Nat → Nat → Nat → Except String (List Tweet))
    (save : Nat → Except String Unit) :
    ((∃ e, curateAllContent env sources usage fetchFeed jitter fetchTw save = Except.error e)
      ↔ sources.filter (fun s => s.is_active) = [])
    ∧ (sources.filter (fun s => s.is_active) ≠ [] →
      (canMakeAPICall usage).canCall = false →
      ((sources.filter (fun s => s.is_active)).filter
          (fun s => s.platform = Platform.twitter)).length > 0 →
      curateAllContent env sources usage fetchFeed jitter fetchTw save =
        Except.ok
          (countSaved save 0
            (rssPhaseRun env ((sources.filter (fun s => s.is_active)).filter
              (fun s => s.platform = Platform.rss)) fetchFeed jitter).1,
          (rssPhaseRun env ((sources.filter (fun s => s.is_active)).filter
              (fun s => s.platform = Platform.rss)) fetchFeed jitter).2 ++
            [rateLimitedPre ++ reasonText (canMakeAPICall usage).reason]))
    ∧ (∀ (rsrcs : List RSSSource),
      (curateRSSContent env rsrcs fetchFeed jitter).1 =
        ((rsrcs.enum).map
          (fun p => (rssSourceContrib env p.2 (fetchFeed p.1) (jitter p.1)).1)).join)
    ∧ (∀ (s : RSSSource) (e : String) (j : Nat → Nat),
      rssSourceContrib env s (Except.error e) j =
        ([], [rssFailPre ++ (s.display_name.getD s.handle) ++ msgSep ++ e])) := by
  refine ⟨?_, ?_, fun rsrcs => curateRSSContent_items env rsrcs fetchFeed jitter,
    fun s e j => rfl⟩
  · by_cases hA : (sources.filter (fun s => s.is_active)).isEmpty = true
    · constructor
      · intro _
        exact List.isEmpty_iff.mp hA
      · intro _
        exact ⟨noSourcesError, by simp [curateAllContent, hA]⟩
    · have hne : sources.filter (fun s => s.is_active) ≠ [] := by
        simpa [List.isEmpty_iff] using hA
      obtain ⟨p, hp⟩ := socialPhase_ok usage
        ((sources.filter (fun s => s.is_active)).filter
          (fun s => s.platform = Platform.twitter)) fetchTw
      constructor
      · rintro ⟨e, he⟩
        simp only [curateAllContent, hA, Bool.false_eq_true, if_false, hp] at he
        exact Except.noConfusion he
      · intro h
        exact absurd h hne
  · intro hne hc hl
    have hA : (sources.filter (fun s => s.is_active)).isEmpty = false := by
      simpa [List.isEmpty_iff] using hne
    have hskip := socialPhase_skip usage
      ((sources.filter (fun s => s.is_active)).filter
        (fun s => s.platform = Platform.twitter)) fetchTw hl hc
    simp only [curateAllContent, hA, Bool.false_eq_true, if_false, hskip]
    simp

theorem claim_c1_error_iff_no_active_witness :
    curateAllContent c7env [c1twSource] (Except.ok (some 3)) c1fetchFeed c1jitter
        c1fetchTw c1saveOk =
      Except.ok
        (countSaved c1saveOk 0
          (rssPhaseRun c7env (([c1twSource].filter (fun s => s.is_active)).filter
            (fun s => s.platform = Platform.rss)) c1fetchFeed c1jitter).1,
        (rssPhaseRun c7env (([c1twSource].filter (fun s => s.is_active)).filter
            (fun s => s.platform = Platform.rss)) c1fetchFeed c1jitter).2 ++
          [rateLimitedPre ++ reasonText (canMakeAPICall (Except.ok (some 3))).reason]) :=
  (claim_c1_error_iff_no_active c7env [c1twSource] (Except.ok (some 3)) c1fetchFeed
    c1jitter c1fetchTw c1saveOk).2.1 (by decide) (by decide) (by decide)

theorem runAndMark_eq (b : Bool) (j : SchedJob) :
    runAndMark b j = { j with executed := true } := by
  cases b <;> rfl

theorem executeScheduledJobs_state_indep (jobs : List SchedJob) (now : Int)
    (r1 r2 : Nat → Bool) :
    executeScheduledJobs jobs now r1 = executeScheduledJobs jobs now r2 := by
  unfold executeScheduledJobs
  simp [runAndMark_eq]

theorem executeScheduledJobs_post_executed (jobs : List SchedJob) (now : Int)
    (r : Nat → Bool) :
    ∀ j ∈ (executeScheduledJobs jobs now r).1, j.scheduledFor ≤ now → j.executed = true := by
  intro j hj hdue
  unfold executeScheduledJobs at hj
  simp only at hj
  have hj2 := (List.mem_filter.mp hj).1
  obtain ⟨p, _, hpe⟩ := List.mem_map.mp hj2
  by_cases hcond : (!p.2.executed && decide (p.2.scheduledFor ≤ now)) = true
  · rw [if_pos hcond, runAndMark_eq] at hpe
    rw [← hpe]
  · rw [if_neg hcond] at hpe
    subst hpe
    simp only [Bool.and_eq_true, Bool.not_eq_true', decide_eq_true_eq, not_and] at hcond
    cases hbe : p.2.executed with
    | false => exact absurd hdue (hcond hbe)
    | true => rfl

theorem executeScheduledJobs_picked (jobs : List SchedJob) (now : Int) (r : Nat → Bool) :
    ∀ j ∈ (executeScheduledJobs jobs now r).2, j.executed = false ∧ j.scheduledFor ≤ now := by
  intro j hj
  unfold executeScheduledJobs at hj
  simp only at hj
  have := (List.mem_filter.mp hj).2
  simp only [Bool.and_eq_true, Bool.not_eq_true', decide_eq_true_eq] at this
  exact this

/-- C8: a scheduler tick marks every job it picks (due and unexecuted) as
executed whether the attempted run succeeded or raised — the resulting job
list does not depend on the run outcomes at all — so any later tick can only
pick jobs that were not yet due: no scheduled job is ever run twice. -/
theorem claim_c8_scheduler_single_execution (jobs : List SchedJob) (now : Int)
    (runRaises : Nat → Bool) :
    (∀ r2 : Nat → Bool, executeScheduledJobs jobs now r2 =
      executeScheduledJobs jobs now runRaises)
    ∧ (∀ j ∈ (executeScheduledJobs jobs now runRaises).2,
        j.executed = false ∧ j.scheduledFor ≤ now)
    ∧ (∀ j ∈ (executeScheduledJobs jobs now runRaises).1,
        j.scheduledFor ≤ now → j.executed = true)
    ∧ (∀ (now2 : Int) (r2 : Nat → Bool),
        ∀ j ∈ (executeScheduledJobs (executeScheduledJobs jobs now runRaises).1 now2 r2).2,
          now < j.scheduledFor) := by
  refine ⟨fun r2 => executeScheduledJobs_state_indep jobs now r2 runRaises,
    executeScheduledJobs_picked jobs now runRaises,
    executeScheduledJobs_post_executed jobs now runRaises,
    fun now2 r2 j hj => ?_⟩
  have hpick := executeScheduledJobs_picked _ now2 r2 j hj
  have hmem : j ∈ (executeScheduledJobs jobs now runRaises).1 := by
    unfold executeScheduledJobs at hj
    simp only at hj
    exact (List.mem_filter.mp hj).1
  by_contra hlt
  push_neg at hlt
  have := executeScheduledJobs_post_executed jobs now runRaises j hmem hlt
  rw [this] at hpick
  exact absurd hpick.1 (by simp)

theorem claim_c8_scheduler_single_execution_witness :
    (executeScheduledJobs [c8jobDue, c8jobLater] 100 c8noRaise =
      executeScheduledJobs [c8jobDue, c8jobLater] 100 c8raise)
    ∧ ((executeScheduledJobs [c8jobDue, c8jobLater] 100 c8raise).2.headD c8jobDue).executed
        = false
    ∧ (∀ j ∈ (executeScheduledJobs
        (executeScheduledJobs [c8jobDue, c8jobLater] 100 c8raise).1 200 c8noRaise).2,
        (100 : Int) < j.scheduledFor) :=
  ⟨(claim_c8_scheduler_single_execution [c8jobDue, c8jobLater] 100 c8raise).1 c8noRaise,
    by decide,
    (claim_c8_scheduler_single_execution [c8jobDue, c8jobLater] 100 c8raise).2.2.2 200
      c8noRaise⟩

end Forme
